import Mathlib

/-!
Shallow embedding of the claude-mobile PWA core (ntfy.js connection module and
app.js orchestrator) together with proofs of its specified properties.

The JavaScript source is translated function by function:
  - `detectType`, `extractActions`, `extractReqId`, `respond`,
    `_saveLastSince`, `_fetchRecent`'s `since` computation, `_processMessage`,
    `_scheduleReconnect` / reconnect-timer firing, the watchdog handlers
    (ntfy.js, the version with watchdog and persisted high-water mark);
  - `handleMessage`, `handleResponse` (app.js orchestrator).
JS numbers are modelled as `Int` (epoch seconds / milliseconds), JS string
truthiness (`""`, `0` are falsy) is made explicit at each use site.
-/

namespace ClaudeMobile

/-! ## String literal constants (tags, types, statuses) -/

def tagLock : String := "lock"

def tagPointRight : String := "point_right"

def tagQuestion : String := "question"

def tagWhiteCheckMark : String := "white_check_mark"

def tagWarning : String := "warning"

def typePermission : String := "permission"

def typeChoice : String := "choice"

def typeApprove : String := "approve"

def typeDone : String := "done"

def typeDecision : String := "decision"

def titlePermission : String := "Permission"

def titleVyber : String := "Vyber"

def titleSchvaleni : String := "Schvaleni"

def titleHotovo : String := "Hotovo"

def actionKindHttp : String := "http"

def eventMessage : String := "message"

def statusConnected : String := "connected"

def statusDisconnected : String := "disconnected"

def statusReconnecting : String := "reconnecting"

def okLabel : String := "OK"

def okBody : String := "OK_1700000000"

def corrIdEx : String := "1700000000"

def msgIdEx : String := "m1"

def emptyStr : String := ""

/-! ## Substring containment (JS `String.prototype.includes`) -/

/-- Does the list start with the given pattern? (helper for `strIncludes`). -/
def startsWithChars : List Char → List Char → Bool
  | _, [] => true
  | [], _ :: _ => false
  | c :: cs, p :: ps => c == p && startsWithChars cs ps

/-- Does the pattern occur as a contiguous sublist? (helper for `strIncludes`). -/
def containsSub (pat : List Char) : List Char → Bool
  | [] => pat.isEmpty
  | c :: cs => startsWithChars (c :: cs) pat || containsSub pat cs

/-- JS `s.includes(pat)`: `pat` occurs as a substring of `s`. -/
def strIncludes (s pat : String) : Bool :=
  containsSub pat.data s.data

/-! ## Raw feed messages and the data model -/

/-- A raw action entry of an inbound ntfy.sh message:
`{action, label, body}` (only the fields the code reads). -/
structure RawAction where
  action : String
  label : String
  body : String
deriving Repr, DecidableEq

/-- A raw inbound ntfy.sh message. Absent JSON fields are `none`;
JS falsy checks (`""`, `0`) are written out where the code does `||`. -/
structure RawMsg where
  id : Option String := none
  event : Option String := none
  title : Option String := none
  message : Option String := none
  time : Option Int := none
  priority : Option Int := none
  tags : Option (List String) := none
  actions : Option (List RawAction) := none
deriving Repr, DecidableEq

/-- An extracted action button: `{label, body}`. -/
structure Action where
  label : String
  body : String
deriving Repr, DecidableEq

/-- The Notification record built by `_processMessage`. -/
structure Notification where
  id : String
  type : String
  title : String
  message : String
  timeMs : Int
  priority : Int
  actions : List Action
  reqId : Option String
  answered : Bool
  answeredWith : Option String
deriving Repr, DecidableEq

/-! ## Message classifier (ntfy.js `detectType`) -/

/-- ntfy.js `detectType(msg)`: tag markers first (lock, point_right, question,
white_check_mark, warning, in that order), then title heuristics
(Permission, Vyber, Schvaleni, Hotovo), else "decision". -/
def detectType (msg : RawMsg) : String :=
  let tags := msg.tags.getD []
  let title := msg.title.getD emptyStr
  if tags.contains tagLock then typePermission
  else if tags.contains tagPointRight then typeChoice
  else if tags.contains tagQuestion then typeApprove
  else if tags.contains tagWhiteCheckMark then typeDone
  else if tags.contains tagWarning then typeDecision
  else if strIncludes title titlePermission then typePermission
  else if strIncludes title titleVyber then typeChoice
  else if strIncludes title titleSchvaleni then typeApprove
  else if strIncludes title titleHotovo then typeDone
  else typeDecision

/-- ntfy.js `extractActions(msg)`: keep entries whose `action` is "http",
as `{label, body}` pairs. -/
def extractActions (msg : RawMsg) : List Action :=
  match msg.actions with
  | none => []
  | some l => (l.filter (fun a => a.action == actionKindHttp)).map
      (fun a => { label := a.label, body := a.body })

/-- ntfy.js `extractReqId(actions)`: `actions[0].body.match(/_(\d+)$/)`,
returning the digit group, else null; null on an empty actions list.
The regex is realised as: the maximal trailing digit run of the body,
accepted iff it is nonempty and immediately preceded by an underscore. -/
def extractReqId (actions : List Action) : Option String :=
  match actions with
  | [] => none
  | a :: _ =>
    let rcs := a.body.data.reverse
    let ds := rcs.takeWhile Char.isDigit
    if ds.isEmpty then none
    else if (rcs.dropWhile Char.isDigit).head? == some '_' then
      some (String.mk ds.reverse)
    else none

/-! ## High-water mark (ntfy.js `_saveLastSince`, `_fetchRecent`) -/

/-- ntfy.js `_saveLastSince(ts)`: `if (!lastSince || ts > lastSince)` set
`lastSince = ts`. JS truthiness: a stored `0` counts as absent. -/
def saveLastSince (ts : Int) : Option Int → Option Int
  | none => some ts
  | some v => if v = 0 ∨ ts > v then some ts else some v

/-- ntfy.js `_fetchRecent`'s `since` computation:
`fallback = floor(nowMs/1000) - 3600`;
`since = lastSince ? max(lastSince - 5, fallback) : fallback`. -/
def fetchRecentSince (lastSince : Option Int) (nowMs : Int) : Int :=
  let fallback := Int.fdiv nowMs 1000 - 3600
  match lastSince with
  | none => fallback
  | some ls => if ls = 0 then fallback else max (ls - 5) fallback

/-- ntfy.js `_processMessage(msg)`: classify, extract actions and req id,
build the Notification (with JS `||` fallbacks made explicit), and update
the high-water mark when `msg.time` is truthy. Returns the notification
handed to the callback and the new `lastSince`. -/
def processMessage (nowMs : Int) (msg : RawMsg) (lastSince : Option Int) :
    Notification × Option Int :=
  let type := detectType msg
  let actions := extractActions msg
  let reqId := extractReqId actions
  let notification : Notification :=
    { id := match msg.id with
            | some s => if s.data.isEmpty then toString nowMs else s
            | none => toString nowMs
      type := type
      title := msg.title.getD emptyStr
      message := msg.message.getD emptyStr
      timeMs := match msg.time with
                | some t => if t = 0 then nowMs else t * 1000
                | none => nowMs
      priority := match msg.priority with
                  | some p => if p = 0 then 3 else p
                  | none => 3
      actions := actions
      reqId := reqId
      answered := false
      answeredWith := none }
  let lastSince' := match msg.time with
                    | some t => if t = 0 then lastSince else saveLastSince t lastSince
                    | none => lastSince
  (notification, lastSince')

/-- The high-water-mark effect of ingesting a sequence of raw messages
through `_processMessage`, in order. -/
def ingestAll (nowMs : Int) (msgs : List RawMsg) (lastSince : Option Int) : Option Int :=
  msgs.foldl (fun ls m => (processMessage nowMs m ls).2) lastSince

/-! ## Reconnect backoff (ntfy.js `_scheduleReconnect`, `ws.onopen`) -/

def RECONNECT_FLOOR : Nat := 1000

def MAX_RECONNECT_DELAY : Nat := 10000

/-- Connection-lifecycle events that touch `reconnectDelay`. -/
inductive NtfyEvent
  | opened
  | unexpectedClose
deriving Repr, DecidableEq

/-- One event step on `reconnectDelay`. `ws.onopen` resets the delay to the
floor and produces no wait. An unexpected close runs `_scheduleReconnect`,
which arms a timer with the CURRENT `reconnectDelay`; when that timer fires it
sets `reconnectDelay = min(reconnectDelay * 2, MAX_RECONNECT_DELAY)` and calls
`_connect` — so the delay actually waited is the pre-doubling value.
Returns (new reconnectDelay, delay waited before the next attempt if any). -/
def stepDelay (d : Nat) : NtfyEvent → Nat × Option Nat
  | NtfyEvent.opened => (RECONNECT_FLOOR, none)
  | NtfyEvent.unexpectedClose => (min (d * 2) MAX_RECONNECT_DELAY, some d)

/-- Run a sequence of events from a given `reconnectDelay`; returns the final
delay value and the list of waited delays, in order. -/
def runEvents (d : Nat) : List NtfyEvent → Nat × List Nat
  | [] => (d, [])
  | e :: es =>
    let (d', w) := stepDelay d e
    let (dEnd, ws) := runEvents d' es
    (dEnd, (match w with | none => [] | some x => [x]) ++ ws)

/-! ## Staleness watchdog (ntfy.js `_resetWatchdog`, socket handlers) -/

def WATCHDOG_MS : Nat := 55000

/-- Connection-manager state relevant to the watchdog and reconnect timers.
`watchdogDeadline` / `reconnectAt` are the absolute firing times of the two
`setTimeout` timers (in ms), `none` when not armed. -/
structure ConnState where
  wsOpen : Bool
  reconnectDelay : Nat
  watchdogDeadline : Option Nat
  reconnectAt : Option Nat
  status : String
  intentionalClose : Bool
deriving Repr, DecidableEq

/-- ntfy.js `_resetWatchdog`: (re)arm the watchdog to fire `WATCHDOG_MS`
after the current time. -/
def resetWatchdog (now : Nat) (s : ConnState) : ConnState :=
  { s with watchdogDeadline := some (now + WATCHDOG_MS) }

/-- ntfy.js `_clearWatchdog`. -/
def clearWatchdog (s : ConnState) : ConnState :=
  { s with watchdogDeadline := none }

/-- ntfy.js `ws.onopen`: reset the backoff delay to the floor, report
"connected", arm the watchdog. -/
def wsOnOpen (now : Nat) (s : ConnState) : ConnState :=
  resetWatchdog now
    { s with reconnectDelay := RECONNECT_FLOOR, status := statusConnected, wsOpen := true }

/-- ntfy.js `ws.onmessage`: `_resetWatchdog()` runs FIRST, before parsing and
before the keepalive/open filter — every frame, keepalive included, re-arms
the watchdog. (Message ingestion itself is `processMessage`.) -/
def wsOnMessage (now : Nat) (_frame : RawMsg) (s : ConnState) : ConnState :=
  resetWatchdog now s

/-- The watchdog timer firing: `if (ws) ws.close()` — the socket is forcibly
closed; the transport then delivers `onclose`. -/
def watchdogFire (s : ConnState) : ConnState :=
  if s.wsOpen then { s with wsOpen := false } else s

/-- ntfy.js `ws.onclose`: clear the watchdog; unless the close was
caller-initiated, report "disconnected" and run `_scheduleReconnect`, arming
the reconnect timer `reconnectDelay` ms from now. -/
def wsOnClose (now : Nat) (s : ConnState) : ConnState :=
  let s1 := clearWatchdog { s with wsOpen := false }
  if s1.intentionalClose then s1
  else { s1 with status := statusDisconnected,
                 reconnectAt := some (now + s1.reconnectDelay) }

/-! ## Response publishing (ntfy.js `respond`, app.js `handleResponse`) -/

/-- The `Response` object a resolved `fetch` yields (only fields that exist;
the code never reads them in `respond`). -/
structure HttpResponse where
  status : Nat
  ok : Bool
deriving Repr, DecidableEq

/-- Outcome of one `fetch` call: resolved with some HTTP response
(any status, 4xx/5xx included), or rejected (network-level failure). -/
inductive FetchOutcome
  | resolved (res : HttpResponse)
  | rejected
deriving Repr, DecidableEq

/-- ntfy.js `respond(body)`: one POST to the reply topic inside try/catch;
returns true when the fetch resolves (the response object is discarded,
its status never inspected), false when the fetch rejects. -/
def respond (o : FetchOutcome) : Bool :=
  match o with
  | FetchOutcome.resolved _ => true
  | FetchOutcome.rejected => false

/-- Modelled from the spec: section 4.3's claimed `respond` semantics
("on failure, retries exactly once...; returns false only if both attempts
fail"), i.e. true iff at least one of the two attempts succeeds. Stated over
the outcomes the network would give the two attempts; used only to compare
the claim against the source's `respond`. -/
def respondSpecClaimed (o1 o2 : FetchOutcome) : Bool :=
  respond o1 || respond o2

/-- Mark a notification answered with the given body (the only mutation
app.js ever performs on a notification). -/
def setAnswered (body : String) (n : Notification) : Notification :=
  { n with answered := true, answeredWith := some body }

/-- Replace the first element satisfying `p` by its image under `f`
(JS `Array.prototype.find` + in-place mutation of the found object). -/
def updateFirst (p : Notification → Bool) (f : Notification → Notification) :
    List Notification → List Notification
  | [] => []
  | x :: xs => if p x then f x :: xs else x :: updateFirst p f xs

/-- app.js `handleResponse(notifId, responseBody)`: look the notification up;
if unknown or already answered, do nothing. Otherwise call `Ntfy.respond`;
if it returned false, wait 1000 ms and call it once more, DISCARDING the
second result (`_o2` only feeds that discarded call); then unconditionally
mark the notification answered. Returns the new notification list, the
number of fetch attempts made, and the waits between attempts. -/
def handleResponseFull (o1 : FetchOutcome) (_o2 : FetchOutcome)
    (notifications : List Notification) (notifId responseBody : String) :
    List Notification × Nat × List Nat :=
  match notifications.find? (fun n => n.id == notifId) with
  | none => (notifications, 0, [])
  | some n =>
    if n.answered then (notifications, 0, [])
    else
      let ok := respond o1
      let attempts := if ok then 1 else 2
      let waits : List Nat := if ok then [] else [1000]
      (updateFirst (fun m => m.id == notifId) (setAnswered responseBody) notifications,
       attempts, waits)

/-! ## Orchestrator deduplication (app.js `handleMessage`) -/

/-- Orchestrator state: the Seen-Set of ids and the notification list
(newest first). -/
structure AppState where
  seenIds : List String
  notifications : List Notification
deriving Repr, DecidableEq

/-- app.js `handleMessage(notification)`: drop silently if the id is in the
Seen-Set; otherwise add it to the Seen-Set; if a notification with that id is
already in the list, stop; otherwise unshift it and run the user-facing
alerting (vibration/beep/render). The Bool records whether the alerting and
append happened. -/
def handleMessage (st : AppState) (n : Notification) : AppState × Bool :=
  if n.id ∈ st.seenIds then (st, false)
  else
    let st1 : AppState := { st with seenIds := n.id :: st.seenIds }
    if st1.notifications.any (fun m => m.id == n.id) then (st1, false)
    else ({ st1 with notifications := n :: st1.notifications }, true)

/-- Deliver a list of notifications to `handleMessage` in order, counting how
many reached the user-facing callback/append. -/
def runMessages (st : AppState) : List Notification → AppState × Nat
  | [] => (st, 0)
  | m :: ms =>
    let (st1, b) := handleMessage st m
    let (st2, k) := runMessages st1 ms
    (st2, (if b then 1 else 0) + k)

/-! ## Concrete sample values used by the witness theorems -/

/-- A sample unanswered permission notification with one action button. -/
def notifEx : Notification :=
  { id := msgIdEx
    type := typePermission
    title := titlePermission
    message := ""
    timeMs := 1700000000000
    priority := 4
    actions := [{ label := okLabel, body := okBody }]
    reqId := some corrIdEx
    answered := false
    answeredWith := none }

/-- A raw message carrying origin time 100. -/
def msgT100 : RawMsg := { time := some 100 }

/-- A raw message carrying origin time 50. -/
def msgT50 : RawMsg := { time := some 50 }

/-- A sample connection state before an open: stale backoff delay, no timers
armed, close not caller-initiated. -/
def connInit : ConnState :=
  { wsOpen := false
    reconnectDelay := 4000
    watchdogDeadline := none
    reconnectAt := none
    status := statusReconnecting
    intentionalClose := false }

/-! ## Helper lemmas -/

/-- Capping before or after scaling by a positive factor gives the same
capped product. -/
theorem min_cap_mul (a M c : Nat) (hc : 0 < c) :
    min (min a M * c) M = min (a * c) M := by
  rcases Nat.le_total a M with h | h
  · rw [Nat.min_eq_left h]
  · have h1 : M ≤ M * c := Nat.le_mul_of_pos_right M hc
    have h2 : M ≤ a * c := h1.trans (Nat.mul_le_mul_right c h)
    rw [Nat.min_eq_right h, Nat.min_eq_right h1, Nat.min_eq_right h2]

/-- The waited reconnect delays for N consecutive unexpected closes from any
in-cap starting delay: the k-th wait is the doubled-and-capped value. -/
theorem runEvents_replicate_closes :
    ∀ (N : Nat) (d : Nat), d ≤ MAX_RECONNECT_DELAY →
      (runEvents d (List.replicate N NtfyEvent.unexpectedClose)).2
        = (List.range N).map (fun k => min (d * 2 ^ k) MAX_RECONNECT_DELAY) := by
  intro N
  induction N with
  | zero => intro d _; rfl
  | succ n ih =>
    intro d hd
    have hd2 : min (d * 2) MAX_RECONNECT_DELAY ≤ MAX_RECONNECT_DELAY :=
      Nat.min_le_right _ _
    rw [List.replicate_succ, List.range_succ_eq_map]
    simp only [runEvents, stepDelay, ih _ hd2, List.map_cons, List.map_map,
      List.singleton_append, Nat.pow_zero, Nat.mul_one, Nat.min_eq_left hd]
    congr 1
    apply List.map_congr_left
    intro k _
    simp only [Function.comp_apply]
    rw [min_cap_mul _ _ _ (Nat.two_pow_pos k), Nat.mul_assoc,
      Nat.mul_comm 2 (2 ^ k), ← Nat.pow_succ]

/-! ## C2 — reconnect backoff -/

/-- C2 counterexample: from the backoff floor (the state right after a
successful open), a single unexpected close (N = 1) is followed by a wait of
1000 ms before the 2nd connection attempt, not min(1000 * 2^1, 10000) =
2000 ms as the claim's formula demands. -/
theorem backoff_claim_counterexample :
    (runEvents RECONNECT_FLOOR [NtfyEvent.unexpectedClose]).2 = [1000]
    ∧ min (RECONNECT_FLOOR * 2 ^ 1) MAX_RECONNECT_DELAY = 2000
    ∧ (1000 : Nat) ≠ 2000 := by
  refine ⟨rfl, by decide, by decide⟩

/-- C2 amended: after N consecutive unexpected closes with no successful open
in between, starting at the floor, the successive waits are
min(floor * 2^k, ceiling) for k = 0 .. N-1 — so the wait before the (N+1)th
attempt is min(floor * 2^(N-1), ceiling); and a successful open resets the
delay so that the wait after the next unexpected close is the floor again. -/
theorem backoff_spec :
    (∀ N : Nat,
      (runEvents RECONNECT_FLOOR (List.replicate N NtfyEvent.unexpectedClose)).2
        = (List.range N).map (fun k => min (RECONNECT_FLOOR * 2 ^ k) MAX_RECONNECT_DELAY))
    ∧ (∀ N : Nat,
      ((runEvents RECONNECT_FLOOR
          (List.replicate (N + 1) NtfyEvent.unexpectedClose)).2).getLast?
        = some (min (RECONNECT_FLOOR * 2 ^ N) MAX_RECONNECT_DELAY))
    ∧ (∀ (d : Nat) (es : List NtfyEvent),
      runEvents d (NtfyEvent.opened :: es) = runEvents RECONNECT_FLOOR es) := by
  have hmap : ∀ N : Nat,
      (runEvents RECONNECT_FLOOR (List.replicate N NtfyEvent.unexpectedClose)).2
        = (List.range N).map (fun k => min (RECONNECT_FLOOR * 2 ^ k) MAX_RECONNECT_DELAY) :=
    fun N => runEvents_replicate_closes N RECONNECT_FLOOR (by decide)
  refine ⟨hmap, ?_, ?_⟩
  · intro N
    rw [hmap (N + 1), List.range_succ, List.map_append, List.map_singleton,
      List.getLast?_concat]
  · intro d es
    simp [runEvents, stepDelay]

/-! ## C6 — catch-up fetch window -/

/-- C6 counterexample: with a persisted high-water mark of 100 s and current
time 10^7 s, the code queries since max(100 - 5, 10^7 - 3600) = 9996400,
not the claimed high-water mark minus 5 = 95. -/
theorem fetchRecentSince_counterexample :
    fetchRecentSince (some 100) 10000000000 = 9996400
    ∧ (100 : Int) - 5 = 95
    ∧ fetchRecentSince (some 100) 10000000000 ≠ 100 - 5 := by
  refine ⟨by decide, by decide, by decide⟩

/-- C6 amended: with a truthy persisted high-water mark, the catch-up query
starts at max(mark - 5, now - 3600) — the 5-second-offset mark is also
clamped below by the one-hour lookback; only the absent (or zero) mark case
uses the plain one-hour fallback. -/
theorem fetchRecentSince_spec :
    ∀ nowMs : Int,
      (∀ ls : Int, ls ≠ 0 →
        fetchRecentSince (some ls) nowMs = max (ls - 5) (Int.fdiv nowMs 1000 - 3600))
      ∧ fetchRecentSince none nowMs = Int.fdiv nowMs 1000 - 3600 := by
  intro nowMs
  refine ⟨fun ls hls => ?_, rfl⟩
  simp [fetchRecentSince, hls]

/-- Witness for the amended C6 at a concrete recent mark (larger than the
one-hour fallback): the query starts 5 s before the mark. -/
theorem fetchRecentSince_spec_witness :
    fetchRecentSince (some 9999000) 10000000000 = 9998995 := by
  rw [(fetchRecentSince_spec 10000000000).1 9999000 (by decide)]
  decide

/-! ## C8 — message classification -/

/-- C8: tag markers decide the type with precedence lock > point_right >
question > white_check_mark > warning (first match wins); an untagged message
whose title contains "Permission" classifies as permission; when no marker
and no title heuristic matches, the type defaults to decision. -/
theorem detectType_classification :
    ∀ msg : RawMsg,
      (tagLock ∈ msg.tags.getD [] → detectType msg = typePermission)
      ∧ (tagLock ∉ msg.tags.getD [] →
          tagPointRight ∈ msg.tags.getD [] →
          detectType msg = typeChoice)
      ∧ (tagLock ∉ msg.tags.getD [] →
          tagPointRight ∉ msg.tags.getD [] →
          tagQuestion ∈ msg.tags.getD [] →
          detectType msg = typeApprove)
      ∧ (tagLock ∉ msg.tags.getD [] →
          tagPointRight ∉ msg.tags.getD [] →
          tagQuestion ∉ msg.tags.getD [] →
          tagWhiteCheckMark ∈ msg.tags.getD [] →
          detectType msg = typeDone)
      ∧ (tagLock ∉ msg.tags.getD [] →
          tagPointRight ∉ msg.tags.getD [] →
          tagQuestion ∉ msg.tags.getD [] →
          tagWhiteCheckMark ∉ msg.tags.getD [] →
          tagWarning ∈ msg.tags.getD [] →
          detectType msg = typeDecision)
      ∧ (msg.tags.getD [] = [] →
          strIncludes (msg.title.getD emptyStr) titlePermission = true →
          detectType msg = typePermission)
      ∧ (tagLock ∉ msg.tags.getD [] →
          tagPointRight ∉ msg.tags.getD [] →
          tagQuestion ∉ msg.tags.getD [] →
          tagWhiteCheckMark ∉ msg.tags.getD [] →
          tagWarning ∉ msg.tags.getD [] →
          strIncludes (msg.title.getD emptyStr) titlePermission = false →
          strIncludes (msg.title.getD emptyStr) titleVyber = false →
          strIncludes (msg.title.getD emptyStr) titleSchvaleni = false →
          strIncludes (msg.title.getD emptyStr) titleHotovo = false →
          detectType msg = typeDecision) := by
  intro msg
  refine ⟨fun h1 => ?_, fun h1 h2 => ?_, fun h1 h2 h3 => ?_, fun h1 h2 h3 h4 => ?_,
    fun h1 h2 h3 h4 h5 => ?_, fun h0 h6 => ?_,
    fun h1 h2 h3 h4 h5 h6 h7 h8 h9 => ?_⟩
  · simp [detectType, h1]
  · simp [detectType, h1, h2]
  · simp [detectType, h1, h2, h3]
  · simp [detectType, h1, h2, h3, h4]
  · simp [detectType, h1, h2, h3, h4, h5]
  · simp [detectType, h0, h6]
  · simp [detectType, h1, h2, h3, h4, h5, h6, h7, h8, h9]

/-- Witness for C8 on three concrete messages: a lock-tagged message (even
with warning also present), an untagged Permission-titled message, and a bare
message falling through to decision. -/
theorem detectType_classification_witness :
    detectType { tags := some [tagLock, tagWarning] } = typePermission
    ∧ detectType { title := some titlePermission } = typePermission
    ∧ detectType {} = typeDecision := by
  refine ⟨(detectType_classification _).1 (by decide),
    (detectType_classification _).2.2.2.2.2.1 (by decide) (by decide),
    (detectType_classification _).2.2.2.2.2.2 (by decide) (by decide) (by decide)
      (by decide) (by decide) (by decide) (by decide) (by decide) (by decide)⟩

/-! ## C10 — respond ignores the HTTP status -/

/-- C10: respond returns true whenever the POST resolves with any HTTP
response — error statuses such as 404 or 500 included, the status field is
never inspected — and returns false exactly when the fetch itself rejects. -/
theorem respond_ignores_status :
    (∀ res : HttpResponse, respond (FetchOutcome.resolved res) = true)
    ∧ respond (FetchOutcome.resolved { status := 404, ok := false }) = true
    ∧ respond (FetchOutcome.resolved { status := 500, ok := false }) = true
    ∧ respond FetchOutcome.rejected = false :=
  ⟨fun _ => rfl, rfl, rfl, rfl⟩

/-! ## C9 — correlation id extraction -/

/-- A reversed body that starts with the digits of `s` and then an
underscore has exactly those digits as its digit run. -/
theorem takeWhile_digits_underscore (s t : List Char)
    (hs : ∀ c ∈ s, Char.isDigit c) :
    (s ++ '_' :: t).takeWhile Char.isDigit = s := by
  rw [List.takeWhile_append_of_pos hs, List.takeWhile_cons_of_neg (by decide),
    List.append_nil]

/-- Companion to `takeWhile_digits_underscore` for the remainder. -/
theorem dropWhile_digits_underscore (s t : List Char)
    (hs : ∀ c ∈ s, Char.isDigit c) :
    (s ++ '_' :: t).dropWhile Char.isDigit = '_' :: t := by
  rw [List.dropWhile_append_of_pos hs, List.dropWhile_cons_of_neg (by decide)]

/-- C9: extraction over the actions list returns none on an empty list, and
on a nonempty list it returns exactly the nonempty all-digit suffix of the
first action's body that sits right after an underscore (the trailing
numeric suffix after the last underscore), none when no such suffix exists
(e.g. a body with no trailing digits). -/
theorem extractReqId_spec :
    extractReqId [] = none
    ∧ ∀ (a : Action) (rest : List Action) (s : String),
        (extractReqId (a :: rest) = some s ↔
          ∃ pre : List Char, a.body.data = pre ++ '_' :: s.data
            ∧ s.data ≠ [] ∧ ∀ c ∈ s.data, Char.isDigit c) := by
  refine ⟨rfl, fun a rest s => ?_⟩
  constructor
  · intro h
    simp only [extractReqId] at h
    split at h
    · simp at h
    · split at h
      · rename_i hne hhead
        have hsplit := List.takeWhile_append_dropWhile Char.isDigit a.body.data.reverse
        cases hdr : a.body.data.reverse.dropWhile Char.isDigit with
        | nil => rw [hdr] at hhead; simp at hhead
        | cons c t =>
          rw [hdr] at hhead hsplit
          have hc : c = '_' := by simpa using hhead
          subst hc
          have hdata : s.data
              = (a.body.data.reverse.takeWhile Char.isDigit).reverse := by
            have := Option.some.inj h
            rw [← this]
          have hbody : a.body.data = t.reverse
              ++ '_' :: (a.body.data.reverse.takeWhile Char.isDigit).reverse := by
            have h2 := congrArg List.reverse hsplit
            simpa [List.reverse_append, List.append_assoc] using h2.symm
          refine ⟨t.reverse, ?_, ?_, ?_⟩
          · rw [hdata]; exact hbody
          · rw [hdata]
            simp only [ne_eq, List.reverse_eq_nil_iff]
            intro hnil
            rw [hnil] at hne
            exact hne rfl
          · intro c hc
            rw [hdata] at hc
            exact List.mem_takeWhile_imp (List.mem_reverse.mp hc)
      · simp at h
  · rintro ⟨pre, hbody, hne, hdig⟩
    have hdigs : ∀ c ∈ s.data.reverse, Char.isDigit c :=
      fun c hc => hdig c (List.mem_reverse.mp hc)
    have hrev : a.body.data.reverse = s.data.reverse ++ '_' :: pre.reverse := by
      rw [hbody]
      simp [List.reverse_append, List.append_assoc]
    have htake : a.body.data.reverse.takeWhile Char.isDigit = s.data.reverse := by
      rw [hrev]; exact takeWhile_digits_underscore _ _ hdigs
    have hdrop : a.body.data.reverse.dropWhile Char.isDigit = '_' :: pre.reverse := by
      rw [hrev]; exact dropWhile_digits_underscore _ _ hdigs
    simp only [extractReqId, htake, hdrop]
    rw [if_neg (by simpa [List.isEmpty_iff] using hne)]
    simp only [List.head?_cons, beq_self_eq_true, if_true, List.reverse_reverse]

/-- Witness for C9 at the claim's own examples: body "OK_1700000000" yields
"1700000000"; the empty actions list yields none. -/
theorem extractReqId_spec_witness :
    extractReqId [{ label := okLabel, body := okBody }] = some corrIdEx
    ∧ extractReqId [] = none := by
  refine ⟨(extractReqId_spec.2 _ [] corrIdEx).mpr
    ⟨okLabel.data, by decide, by decide, by decide⟩, extractReqId_spec.1⟩

/-! ## C1 — exactly-once delivery through the Seen-Set -/

/-- A delivery whose id is already in the Seen-Set is silently dropped:
the state is unchanged and the callback/append does not run. -/
theorem handleMessage_of_seen (st : AppState) (n : Notification)
    (h : n.id ∈ st.seenIds) : handleMessage st n = (st, false) := by
  simp [handleMessage, h]

/-- Once an id is in the Seen-Set, any further stream of deliveries of that
id leaves the state unchanged and alerts zero times. -/
theorem runMessages_of_seen (i : String) :
    ∀ (ms : List Notification) (st : AppState), i ∈ st.seenIds →
      (∀ m ∈ ms, m.id = i) → runMessages st ms = (st, 0) := by
  intro ms
  induction ms with
  | nil => intro st _ _; rfl
  | cons m rest ih =>
    intro st hseen hall
    have hm : m.id = i := hall m (List.mem_cons_self m rest)
    have h1 : handleMessage st m = (st, false) :=
      handleMessage_of_seen st m (by rw [hm]; exact hseen)
    simp [runMessages, h1,
      ih st hseen (fun x hx => hall x (List.mem_cons_of_mem m hx))]

/-- C1: a delivery of an id in the Seen-Set is dropped before the callback;
and for any nonempty sequence of deliveries of one id (live and catch-up
paths both land here, in any order and multiplicity) from a state that has
not seen it, the callback/append fires exactly once and the notification
list ends up holding exactly one entry with that id. -/
theorem handleMessage_dedup :
    (∀ (st : AppState) (n : Notification),
        n.id ∈ st.seenIds → handleMessage st n = (st, false))
    ∧ (∀ (st : AppState) (i : String) (ms : List Notification),
        ms ≠ [] → (∀ m ∈ ms, m.id = i) →
        i ∉ st.seenIds → (∀ m ∈ st.notifications, m.id ≠ i) →
        (runMessages st ms).2 = 1
        ∧ ((runMessages st ms).1.notifications.filter
            (fun m => m.id == i)).length = 1) := by
  refine ⟨handleMessage_of_seen, ?_⟩
  intro st i ms hne hall hnotseen hnotin
  cases ms with
  | nil => exact absurd rfl hne
  | cons m rest =>
    have hm : m.id = i := hall m (List.mem_cons_self m rest)
    have hseen' : m.id ∉ st.seenIds := by rw [hm]; exact hnotseen
    have hany : st.notifications.any (fun x => x.id == m.id) = false := by
      rw [List.any_eq_false]
      intro x hx
      simp [hm, hnotin x hx]
    have hstep : handleMessage st m
        = ({ seenIds := m.id :: st.seenIds
             notifications := m :: st.notifications }, true) := by
      simp [handleMessage, hseen', hany]
    have hrest : runMessages ({ seenIds := m.id :: st.seenIds
                                notifications := m :: st.notifications } : AppState) rest
        = ({ seenIds := m.id :: st.seenIds
             notifications := m :: st.notifications }, 0) :=
      runMessages_of_seen i rest _
        (by rw [hm]; exact List.mem_cons_self i st.seenIds)
        (fun x hx => hall x (List.mem_cons_of_mem m hx))
    have hfil : st.notifications.filter (fun x => x.id == i) = [] := by
      rw [List.filter_eq_nil_iff]
      intro x hx
      simp [hnotin x hx]
    rw [hm] at hstep hrest
    constructor
    · simp [runMessages, hstep, hrest]
    · simp [runMessages, hstep, hrest, List.filter_cons, hm, hfil]

/-- Witness for C1: the same message delivered twice (live + catch-up) from
a fresh state alerts once and appears once. -/
theorem handleMessage_dedup_witness :
    (runMessages ({ seenIds := [], notifications := [] } : AppState)
      [notifEx, notifEx]).2 = 1
    ∧ ((runMessages ({ seenIds := [], notifications := [] } : AppState)
        [notifEx, notifEx]).1.notifications.filter
          (fun m => m.id == msgIdEx)).length = 1 :=
  handleMessage_dedup.2 ({ seenIds := [], notifications := [] } : AppState)
    msgIdEx [notifEx, notifEx] (by decide) (by decide) (by decide) (by decide)

/-! ## C5 — the answered pair transitions at most once -/

/-- updateFirst on a list whose first match is `x` replaces exactly `x`. -/
theorem updateFirst_append (p : Notification → Bool)
    (f : Notification → Notification) :
    ∀ (l1 : List Notification) (x : Notification) (l2 : List Notification),
      (∀ m ∈ l1, p m = false) → p x = true →
      updateFirst p f (l1 ++ x :: l2) = l1 ++ f x :: l2 := by
  intro l1
  induction l1 with
  | nil => intro x l2 _ hx; simp [updateFirst, hx]
  | cons y ys ih =>
    intro x l2 hl hx
    have hy : p y = false := hl y (List.mem_cons_self y ys)
    simp [updateFirst, hy,
      ih x l2 (fun m hm => hl m (List.mem_cons_of_mem y hm)) hx]

/-- find? on a list whose prefix all fails the predicate finds the middle
element. -/
theorem find?_middle (p : Notification → Bool) :
    ∀ (l1 : List Notification) (x : Notification) (l2 : List Notification),
      (∀ m ∈ l1, p m = false) → p x = true →
      (l1 ++ x :: l2).find? p = some x := by
  intro l1
  induction l1 with
  | nil => intro x l2 _ hx; simp [List.find?_cons, hx]
  | cons y ys ih =>
    intro x l2 hl hx
    have hy : p y = false := hl y (List.mem_cons_self y ys)
    simp [List.find?_cons, hy,
      ih x l2 (fun m hm => hl m (List.mem_cons_of_mem y hm)) hx]

/-- The notification-list component of handleResponse, isolated: unknown or
answered ids are no-ops, otherwise the first match is marked answered. -/
theorem handleResponseFull_fst (o1 o2 : FetchOutcome) (ns : List Notification)
    (notifId body : String) :
    (handleResponseFull o1 o2 ns notifId body).1
      = match ns.find? (fun m => m.id == notifId) with
        | none => ns
        | some n => if n.answered then ns
            else updateFirst (fun m => m.id == notifId) (setAnswered body) ns := by
  cases hf : ns.find? (fun m => m.id == notifId) with
  | none => simp [handleResponseFull, hf]
  | some n =>
    by_cases ha : n.answered = true
    · simp [handleResponseFull, hf, ha]
    · simp [handleResponseFull, hf, ha]

/-- C5: handleResponse leaves everything unchanged for an unknown or
already-answered id; on the first unanswered match it flips exactly the
answered/answeredWith pair to (true, body), preserving every other field and
every other element; a second call is a no-op (the pair transitions at most
once); and the marking is identical whatever the two publish outcomes were —
both attempts failing included. -/
theorem answered_transition :
    ∀ (o1 o2 : FetchOutcome) (ns : List Notification) (notifId body : String),
      ((∀ n ∈ ns, n.id ≠ notifId) →
        (handleResponseFull o1 o2 ns notifId body).1 = ns)
      ∧ (∀ n, ns.find? (fun m => m.id == notifId) = some n → n.answered = true →
          (handleResponseFull o1 o2 ns notifId body).1 = ns)
      ∧ (∀ n, ns.find? (fun m => m.id == notifId) = some n → n.answered = false →
          ∃ l1 l2, ns = l1 ++ n :: l2
            ∧ (∀ m ∈ l1, (m.id == notifId) = false)
            ∧ (handleResponseFull o1 o2 ns notifId body).1
                = l1 ++ { n with answered := true, answeredWith := some body } :: l2)
      ∧ (∀ body', (handleResponseFull o1 o2
            ((handleResponseFull o1 o2 ns notifId body).1) notifId body').1
          = (handleResponseFull o1 o2 ns notifId body).1)
      ∧ (∀ o1' o2', (handleResponseFull o1' o2' ns notifId body).1
          = (handleResponseFull o1 o2 ns notifId body).1) := by
  intro o1 o2 ns notifId body
  refine ⟨?_, ?_, ?_, ?_, ?_⟩
  · intro hno
    have hf : ns.find? (fun m => m.id == notifId) = none := by
      rw [List.find?_eq_none]
      intro x hx
      simp [hno x hx]
    rw [handleResponseFull_fst, hf]
  · intro n hf ha
    rw [handleResponseFull_fst, hf]
    simp [ha]
  · intro n hf ha
    obtain ⟨hp, l1, l2, heq, hl1⟩ := List.find?_eq_some.mp hf
    have hl1' : ∀ m ∈ l1, (m.id == notifId) = false := by
      intro m hm
      simpa using hl1 m hm
    refine ⟨l1, l2, heq, hl1', ?_⟩
    rw [handleResponseFull_fst, hf]
    simp only [ha, if_false, Bool.false_eq_true]
    rw [heq]
    exact updateFirst_append _ _ l1 n l2 hl1' hp
  · intro body'
    cases hf : ns.find? (fun m => m.id == notifId) with
    | none => rw [handleResponseFull_fst o1 o2 ns, hf, handleResponseFull_fst, hf]
    | some n =>
      by_cases ha : n.answered = true
      · rw [handleResponseFull_fst o1 o2 ns, hf]
        simp only [ha, if_true]
        rw [handleResponseFull_fst, hf]
        simp [ha]
      · obtain ⟨hp, l1, l2, heq, hl1⟩ := List.find?_eq_some.mp hf
        have hl1' : ∀ m ∈ l1, ((fun m => m.id == notifId) m) = false := by
          intro m hm
          simpa using hl1 m hm
        have hres : (handleResponseFull o1 o2 ns notifId body).1
            = l1 ++ setAnswered body n :: l2 := by
          rw [handleResponseFull_fst, hf]
          simp only [ha, if_false, Bool.false_eq_true]
          rw [heq]
          exact updateFirst_append _ _ l1 n l2 hl1' hp
        have hfind2 : (l1 ++ setAnswered body n :: l2).find?
            (fun m => m.id == notifId) = some (setAnswered body n) :=
          find?_middle _ l1 (setAnswered body n) l2 hl1' hp
        rw [hres, handleResponseFull_fst, hfind2]
        simp [setAnswered]
  · intro o1' o2'
    rw [handleResponseFull_fst o1' o2', handleResponseFull_fst o1 o2]

/-- Witness for C5: answering the sample unanswered notification flips
exactly its answered pair, even with both publish attempts rejected. -/
theorem answered_transition_witness :
    ∃ l1 l2, [notifEx] = l1 ++ notifEx :: l2
      ∧ (∀ m ∈ l1, (m.id == msgIdEx) = false)
      ∧ (handleResponseFull FetchOutcome.rejected FetchOutcome.rejected
          [notifEx] msgIdEx okBody).1
        = l1 ++ { notifEx with answered := true, answeredWith := some okBody } :: l2 :=
  (answered_transition FetchOutcome.rejected FetchOutcome.rejected [notifEx]
    msgIdEx okBody).2.2.1 notifEx (by decide) (by decide)

/-! ## C4 — respond and the retry -/

/-- C4 counterexample: when the first fetch rejects and a second attempt
would resolve, the source's respond has already returned false — it makes no
second attempt — while the claimed two-attempt semantics returns true. -/
theorem respond_retry_counterexample :
    respond FetchOutcome.rejected = false
    ∧ respondSpecClaimed FetchOutcome.rejected
        (FetchOutcome.resolved { status := 200, ok := true }) = true
    ∧ respond FetchOutcome.rejected
        ≠ respondSpecClaimed FetchOutcome.rejected
            (FetchOutcome.resolved { status := 200, ok := true }) :=
  ⟨rfl, rfl, by decide⟩

/-- C4 amended: respond is a single attempt returning true iff the fetch
resolves; the orchestrator's handleResponse performs the retry — exactly one
extra attempt after a 1000 ms wait when respond returned false, none when it
returned true — and discards the retry's outcome, so no boolean covering
both attempts exists. -/
theorem respond_retry_spec :
    ∀ (o1 o2 : FetchOutcome) (ns : List Notification) (notifId body : String)
      (n : Notification),
      ns.find? (fun m => m.id == notifId) = some n → n.answered = false →
      (respond o1 = true →
        (handleResponseFull o1 o2 ns notifId body).2 = (1, []))
      ∧ (respond o1 = false →
        (handleResponseFull o1 o2 ns notifId body).2 = (2, [1000]))
      ∧ (∀ o2', handleResponseFull o1 o2' ns notifId body
          = handleResponseFull o1 o2 ns notifId body)
      ∧ (respond o1 = true ↔ ∃ res, o1 = FetchOutcome.resolved res) := by
  intro o1 o2 ns notifId body n hf ha
  refine ⟨fun hr => ?_, fun hr => ?_, fun o2' => ?_, ?_⟩
  · simp [handleResponseFull, hf, ha, hr]
  · simp [handleResponseFull, hf, ha, hr]
  · simp [handleResponseFull]
  · constructor
    · intro hr
      cases o1 with
      | resolved res => exact ⟨res, rfl⟩
      | rejected => simp [respond] at hr
    · rintro ⟨res, rfl⟩
      rfl

/-- Witness for the amended C4: a rejected first attempt on the sample
notification produces exactly two attempts with a 1000 ms wait between. -/
theorem respond_retry_spec_witness :
    (handleResponseFull FetchOutcome.rejected FetchOutcome.rejected
      [notifEx] msgIdEx okBody).2 = (2, [1000]) :=
  (respond_retry_spec FetchOutcome.rejected FetchOutcome.rejected [notifEx]
    msgIdEx okBody notifEx (by decide) (by decide)).2.1 (by decide)

/-! ## C7 — monotone high-water mark -/

/-- One saveLastSince step with a positive timestamp yields a value bounded
below by both the timestamp and any previous value. -/
theorem saveLastSince_bounds (t : Int) (ht : 0 < t) :
    ∀ ls : Option Int, ∃ w, saveLastSince t ls = some w ∧ t ≤ w
      ∧ ∀ v, ls = some v → v ≤ w := by
  intro ls
  cases ls with
  | none => exact ⟨t, rfl, le_refl t, by simp⟩
  | some v =>
    by_cases hv : v = 0
    · subst hv
      refine ⟨t, by simp [saveLastSince], le_refl t, ?_⟩
      intro u hu
      injection hu with hu
      omega
    · by_cases htv : t > v
      · refine ⟨t, by simp [saveLastSince, htv], le_refl t, ?_⟩
        intro u hu
        injection hu with hu
        omega
      · refine ⟨v, by simp [saveLastSince, hv, htv], by omega, ?_⟩
        intro u hu
        injection hu with hu
        omega

/-- The high-water-mark component of one processMessage step. -/
theorem processMessage_hwm (nowMs : Int) (m : RawMsg) (ls : Option Int) :
    (processMessage nowMs m ls).2
      = match m.time with
        | none => ls
        | some t => if t = 0 then ls else saveLastSince t ls := by
  cases htime : m.time with
  | none => simp [processMessage, htime]
  | some t => simp [processMessage, htime]

/-- Unfolding one step of ingestAll. -/
theorem ingestAll_cons (nowMs : Int) (m : RawMsg) (msgs : List RawMsg)
    (ls : Option Int) :
    ingestAll nowMs (m :: msgs) ls
      = ingestAll nowMs msgs ((processMessage nowMs m ls).2) := rfl

/-- C7: over any sequence of ingested messages with positive origin times,
the persisted high-water mark never decreases — a stored value is a lower
bound of the final one — and the origin time of every ingested message that
carries one is a lower bound of the final mark (each message's time was
folded into it). -/
theorem highWaterMark_monotone :
    ∀ (nowMs : Int) (msgs : List RawMsg) (ls : Option Int),
      (∀ m ∈ msgs, ∀ t : Int, m.time = some t → 0 < t) →
      (∀ v : Int, ls = some v →
        ∃ w, ingestAll nowMs msgs ls = some w ∧ v ≤ w)
      ∧ (∀ m ∈ msgs, ∀ t : Int, m.time = some t →
        ∃ w, ingestAll nowMs msgs ls = some w ∧ t ≤ w) := by
  intro nowMs msgs
  induction msgs with
  | nil =>
    intro ls _
    constructor
    · intro v hv
      exact ⟨v, hv, le_refl v⟩
    · intro m hm
      exact absurd hm (List.not_mem_nil m)
  | cons m rest ih =>
    intro ls hpos
    have hpos' : ∀ x ∈ rest, ∀ t : Int, x.time = some t → 0 < t :=
      fun x hx => hpos x (List.mem_cons_of_mem m hx)
    have ihls := ih ((processMessage nowMs m ls).2) hpos'
    constructor
    · intro v hv
      cases htime : m.time with
      | none =>
        have hstep : (processMessage nowMs m ls).2 = ls := by
          rw [processMessage_hwm, htime]
        obtain ⟨w, hw, hvw⟩ := ihls.1 v (by rw [hstep, hv])
        exact ⟨w, by rw [ingestAll_cons]; exact hw, hvw⟩
      | some t =>
        have ht : 0 < t := hpos m (List.mem_cons_self m rest) t htime
        have hstep : (processMessage nowMs m ls).2 = saveLastSince t ls := by
          rw [processMessage_hwm, htime]
          exact if_neg (by omega)
        obtain ⟨w1, hw1, _, hold⟩ := saveLastSince_bounds t ht ls
        obtain ⟨w, hw, hww⟩ := ihls.1 w1 (by rw [hstep, hw1])
        exact ⟨w, by rw [ingestAll_cons]; exact hw, le_trans (hold v hv) hww⟩
    · intro x hx t hxt
      rcases List.mem_cons.mp hx with rfl | hxr
      · have ht : 0 < t := hpos x (List.mem_cons_self x rest) t hxt
        have hstep : (processMessage nowMs x ls).2 = saveLastSince t ls := by
          rw [processMessage_hwm, hxt]
          exact if_neg (by omega)
        obtain ⟨w1, hw1, htw1, _⟩ := saveLastSince_bounds t ht ls
        obtain ⟨w, hw, hww⟩ := ihls.1 w1 (by rw [hstep, hw1])
        exact ⟨w, by rw [ingestAll_cons]; exact hw, le_trans htw1 hww⟩
      · obtain ⟨w, hw, htw⟩ := ihls.2 x hxr t hxt
        exact ⟨w, by rw [ingestAll_cons]; exact hw, htw⟩

/-- Witness for C7: ingesting times 100 then 50 over a stored mark 7 ends at
a mark bounded below by the stored value (it ends at 100; the later smaller
time 50 does not drag it down). -/
theorem highWaterMark_monotone_witness :
    ∃ w, ingestAll 0 [msgT100, msgT50] (some 7) = some w ∧ 7 ≤ w :=
  (highWaterMark_monotone 0 [msgT100, msgT50] (some 7)
    (by
      intro m hm t ht
      rcases List.mem_cons.mp hm with rfl | hm2
      · simp only [msgT100, Option.some.injEq] at ht
        omega
      · rcases List.mem_cons.mp hm2 with rfl | hm3
        · simp only [msgT50, Option.some.injEq] at ht
          omega
        · exact absurd hm3 (List.not_mem_nil m))).1 7 rfl

/-! ## C3 — staleness watchdog -/

/-- C3: every inbound frame — keepalive frames included, since the reset
runs before the event filter — re-arms the watchdog to fire WATCHDOG_MS
after that frame (touching neither the backoff delay nor the socket); and
when nothing arrives for WATCHDOG_MS after the open (or after the last
frame), the firing watchdog forcibly closes the socket, after which the
close handler reports disconnected and schedules a reconnect exactly
RECONNECT_FLOOR ms later — the floor, because the open reset the delay. -/
theorem watchdog_spec :
    (∀ (now : Nat) (frame : RawMsg) (s : ConnState),
      (wsOnMessage now frame s).watchdogDeadline = some (now + WATCHDOG_MS)
      ∧ (wsOnMessage now frame s).reconnectDelay = s.reconnectDelay
      ∧ (wsOnMessage now frame s).wsOpen = s.wsOpen)
    ∧ (∀ (t0 : Nat) (s : ConnState), s.intentionalClose = false →
      (wsOnOpen t0 s).watchdogDeadline = some (t0 + WATCHDOG_MS)
      ∧ (wsOnOpen t0 s).reconnectDelay = RECONNECT_FLOOR
      ∧ (watchdogFire (wsOnOpen t0 s)).wsOpen = false
      ∧ (wsOnClose (t0 + WATCHDOG_MS) (watchdogFire (wsOnOpen t0 s))).status
          = statusDisconnected
      ∧ (wsOnClose (t0 + WATCHDOG_MS) (watchdogFire (wsOnOpen t0 s))).reconnectAt
          = some (t0 + WATCHDOG_MS + RECONNECT_FLOOR))
    ∧ (∀ (t0 t1 : Nat) (frame : RawMsg) (s : ConnState),
        s.intentionalClose = false →
      (wsOnMessage t1 frame (wsOnOpen t0 s)).watchdogDeadline
          = some (t1 + WATCHDOG_MS)
      ∧ (wsOnClose (t1 + WATCHDOG_MS)
          (watchdogFire (wsOnMessage t1 frame (wsOnOpen t0 s)))).reconnectAt
        = some (t1 + WATCHDOG_MS + RECONNECT_FLOOR)) := by
  refine ⟨fun now frame s => ⟨rfl, rfl, rfl⟩, fun t0 s hic => ?_, fun t0 t1 frame s hic => ?_⟩
  · refine ⟨rfl, rfl, rfl, ?_, ?_⟩
    · simp [wsOnClose, watchdogFire, wsOnOpen, resetWatchdog, clearWatchdog, hic]
    · simp [wsOnClose, watchdogFire, wsOnOpen, resetWatchdog, clearWatchdog, hic]
  · refine ⟨rfl, ?_⟩
    simp [wsOnClose, watchdogFire, wsOnMessage, wsOnOpen, resetWatchdog,
      clearWatchdog, hic]

/-- Witness for C3: from the sample pre-open state (stale 4000 ms backoff
delay), silence after an open at t = 100 leads to a forced close at 55100
and a reconnect scheduled for 56100 — the floor delay, not 4000. -/
theorem watchdog_spec_witness :
    (wsOnOpen 100 connInit).watchdogDeadline = some (100 + WATCHDOG_MS)
    ∧ (watchdogFire (wsOnOpen 100 connInit)).wsOpen = false
    ∧ (wsOnClose (100 + WATCHDOG_MS) (watchdogFire (wsOnOpen 100 connInit))).reconnectAt
        = some 56100 :=
  have h := watchdog_spec.2.1 100 connInit (by decide)
  ⟨h.1, h.2.2.1, h.2.2.2.2⟩

end ClaudeMobile
